import Mathlib

/-!
Verification model of the OpenThread SRP server core
(src/core/net/srp_server.hpp).

The repository ships only the class header; the bodies of most methods
(parser, commit, conflict check, lease timer, domain setter) live in a
srp_server.cpp translation unit that is not part of the sources.  Methods
whose bodies are inline in the header (Host::IsDeleted, Service::IsDeleted,
Host::GetAddresses, Server::AllocateId, UpdateMetadata::Matches,
Server::GetDomain) are translated from that source text directly; the rest
are modelled from the specification, as flagged in their doc comments.

Machine integers: the C++ uint32 values (leases, TTLs, update ids) are
modelled as Nat, with an explicit modulus two to the power 32 where the
source relies on unsigned wrap-around (AllocateId).  Times are monotonic
milliseconds, leases are seconds, exactly as in the source.
-/

set_option maxHeartbeats 1000000

/-- Lower-case one character, used for case-insensitive DNS name compare. -/
def lowerChar (c : Char) : Char :=
  if 'A' ≤ c ∧ c ≤ 'Z' then Char.ofNat (c.toNat + 32) else c

/-- Modelled from the spec: DNS names are compared case-insensitively
(section 4.1); implemented by the missing Dns::Name utilities. -/
def nameMatch (a b : String) : Bool :=
  a.data.map lowerChar == b.data.map lowerChar

/-- Shared per-instance data of a service (Server::Service::Description).
Sharing by RetainPtr in the source is modelled by keying descriptions by
instance name inside the owning host: every service of the host with the
same instance name observes the same description. -/
structure SrvDescription where
  mInstanceName : String
  mTxtData : List Nat
  mPriority : Nat
  mWeight : Nat
  mPort : Nat
  mTtl : Nat
  mLease : Nat
  mKeyLease : Nat
  mUpdateTime : Nat
deriving DecidableEq

/-- One PTR registration (Server::Service).  The description handle is
modelled by the instance name, which keys the owning host's description
list. -/
structure SrvService where
  mServiceName : String
  mInstanceName : String
  mIsSubType : Bool
  mIsDeleted : Bool
  mIsCommitted : Bool
  mUpdateTime : Nat
deriving DecidableEq

/-- Translated from the source (srp_server.hpp line 230):
Service::IsDeleted returns mIsDeleted. -/
def SrvService.IsDeleted (sv : SrvService) : Bool := sv.mIsDeleted

def SrvService.markDeleted (sv : SrvService) : SrvService :=
  { sv with mIsDeleted := true }

def SrvService.markCommitted (sv : SrvService) : SrvService :=
  { sv with mIsCommitted := true }

/-- A registered host (Server::Host).  Addresses and the ECDSA KEY record
are opaque to every claim, so they are modelled as Nat values; mKeyRecord
is none when no valid key exists (GetKeyRecord returning nullptr). -/
structure SrvHost where
  mFullName : String
  mAddresses : List Nat
  mKeyRecord : Option Nat
  mTtl : Nat
  mLease : Nat
  mKeyLease : Nat
  mUpdateTime : Nat
  mServices : List SrvService
  mDescriptions : List SrvDescription
deriving DecidableEq

/-- Translated from the source (srp_server.hpp line 469):
Host::IsDeleted returns (mLease == 0). -/
def SrvHost.IsDeleted (h : SrvHost) : Bool := h.mLease == 0

/-- Translated from the source (common/num_utils.hpp, used at line 489):
clamp a length into uint8 range. -/
def ClampToUint8 (aValue : Nat) : Nat := min aValue 255

/-- Translated from the source (srp_server.hpp lines 487-492): sets the
out-parameter address count to the clamped array length and returns the
array pointer.  The C array pointer is modelled as an Option which is none
exactly when the heap array is empty (AsCArray returning nullptr). -/
def SrvHost.GetAddresses (h : SrvHost) : Option (List Nat) × Nat :=
  (if h.mAddresses.isEmpty then none else some h.mAddresses,
   ClampToUint8 h.mAddresses.length)

/-- Modelled from the spec: Host::FindServiceDescription; a description
lookup by instance name inside one host (section 4.3). -/
def SrvHost.findDescription (h : SrvHost) (aInstanceName : String) :
    Option SrvDescription :=
  h.mDescriptions.find? fun d => nameMatch d.mInstanceName aInstanceName

/-- Modelled from the spec: Host::HasServiceInstance, true when a (live)
description of the host is bound to the given instance name. -/
def SrvHost.HasServiceInstance (h : SrvHost) (aInstanceName : String) : Bool :=
  h.mDescriptions.any fun d => nameMatch d.mInstanceName aInstanceName

/-- Clamp of x into the closed range lo..hi, as used by the lease policy. -/
def natClamp (x lo hi : Nat) : Nat := max lo (min x hi)

/-- TTL configuration (Server::TtlConfig over otSrpServerTtlConfig). -/
structure TtlConfig where
  mMinTtl : Nat
  mMaxTtl : Nat
deriving DecidableEq

def TtlConfig.IsValid (c : TtlConfig) : Bool := decide (c.mMinTtl ≤ c.mMaxTtl)

/-- Modelled from the spec: TtlConfig::GrantTtl (declared at srp_server.hpp
line 647, body in the missing srp_server.cpp); granted_ttl is the minimum
of the requested TTL, the granted lease and mMaxTtl, lower-bounded by
mMinTtl (section 4.2). -/
def TtlConfig.GrantTtl (c : TtlConfig) (aLease aTtl : Nat) : Nat :=
  natClamp (min aTtl aLease) c.mMinTtl c.mMaxTtl

/-- LEASE and KEY-LEASE configuration (Server::LeaseConfig). -/
structure LeaseConfig where
  mMinLease : Nat
  mMaxLease : Nat
  mMinKeyLease : Nat
  mMaxKeyLease : Nat
deriving DecidableEq

def LeaseConfig.IsValid (c : LeaseConfig) : Bool :=
  decide (c.mMinLease ≤ c.mMaxLease ∧ c.mMinKeyLease ≤ c.mMaxKeyLease)

/-- Modelled from the spec: LeaseConfig::GrantLease (declared at
srp_server.hpp line 667, body missing); a requested 0 passes through
(delete), otherwise the request is clamped into mMinLease..mMaxLease
(section 4.2). -/
def LeaseConfig.GrantLease (c : LeaseConfig) (aLease : Nat) : Nat :=
  if aLease = 0 then 0 else natClamp aLease c.mMinLease c.mMaxLease

/-- Modelled from the spec: LeaseConfig::GrantKeyLease (declared at
srp_server.hpp line 668, body missing); same clamping rule on the key
lease range. -/
def LeaseConfig.GrantKeyLease (c : LeaseConfig) (aKeyLease : Nat) : Nat :=
  if aKeyLease = 0 then 0 else natClamp aKeyLease c.mMinKeyLease c.mMaxKeyLease

/-- DNS response codes emitted by the update pipeline (section 6). -/
inductive DnsResponseCode where
  | noerror
  | formerr
  | refused
  | notauth
  | nameExists
  | serverFailure
deriving DecidableEq

/-- DNS response to a client: success carries the granted LEASE and
KEY-LEASE values (section 4.6). -/
inductive DnsResponse where
  | success (aLease aKeyLease : Nat)
  | failure (aCode : DnsResponseCode)
deriving DecidableEq

/-- Error codes of the configuration API (subset of ot Error). -/
inductive OtError where
  | kErrorNone
  | kErrorInvalidState
  | kErrorInvalidArgs
  | kErrorFailed
  | kErrorResponseTimeout
  | kErrorAbort
deriving DecidableEq

/-- Server state machine (srp_server.hpp lines 167-172). -/
inductive SrvState where
  | kStateDisabled
  | kStateRunning
  | kStateStopped
deriving DecidableEq

/-- One service instruction extracted from the update section: the PTR
record plus the SRV and TXT data of its instance (sections 4.4 phases
4 and 5). -/
structure ServiceInstr where
  mServiceName : String
  mInstanceName : String
  mIsSubType : Bool
  mDelete : Bool
  mPriority : Nat
  mWeight : Nat
  mPort : Nat
  mTxtData : List Nat
  mSrvTargetHostName : String
deriving DecidableEq

/-- Abstracted DNS UPDATE message: the wire codec is out of scope, so the
message is modelled after the record-level content the parser phases of
section 4.4 inspect. -/
structure DnsMessage where
  mOpcodeIsUpdate : Bool
  mZoneCount : Nat
  mPrereqCount : Nat
  mUpdateCount : Nat
  mAdditionalCount : Nat
  mZoneIsSOA : Bool
  mZoneIsIN : Bool
  mZoneName : String
  mHostName : String
  mHostAddresses : List Nat
  mHostKey : Option Nat
  mInstrs : List ServiceInstr
  mRequestedTtl : Nat
  mRequestedLease : Option Nat
  mRequestedKeyLease : Option Nat
  mSigValid : Bool
deriving DecidableEq

def stagedService (aRxTime : Nat) (i : ServiceInstr) : SrvService :=
  { mServiceName := i.mServiceName
    mInstanceName := i.mInstanceName
    mIsSubType := i.mIsSubType
    mIsDeleted := i.mDelete
    mIsCommitted := false
    mUpdateTime := aRxTime }

def stagedDescription (aTtl aLease aKeyLease aRxTime : Nat)
    (i : ServiceInstr) : SrvDescription :=
  { mInstanceName := i.mInstanceName
    mTxtData := i.mTxtData
    mPriority := i.mPriority
    mWeight := i.mWeight
    mPort := i.mPort
    mTtl := aTtl
    mLease := aLease
    mKeyLease := aKeyLease
    mUpdateTime := aRxTime }

/-- Modelled from the spec: phase 7 of the parse (section 4.4) builds the
staged host, applying the lease policy; absent LEASE / KEY-LEASE options
default to the configured maxima, and the granted key lease must end up
at least the granted lease (section 4.2). -/
def buildStagedHost (tc : TtlConfig) (lc : LeaseConfig) (m : DnsMessage)
    (aKey : Nat) (aRxTime : Nat) : SrvHost :=
  let requestedLease := m.mRequestedLease.getD lc.mMaxLease
  let requestedKeyLease := m.mRequestedKeyLease.getD lc.mMaxKeyLease
  let grantedLease := lc.GrantLease requestedLease
  let grantedKeyLease := max (lc.GrantKeyLease requestedKeyLease) grantedLease
  let grantedTtl := tc.GrantTtl grantedLease m.mRequestedTtl
  { mFullName := m.mHostName
    mAddresses := m.mHostAddresses
    mKeyRecord := some aKey
    mTtl := grantedTtl
    mLease := grantedLease
    mKeyLease := grantedKeyLease
    mUpdateTime := aRxTime
    mServices := m.mInstrs.map (stagedService aRxTime)
    mDescriptions :=
      m.mInstrs.map (stagedDescription grantedTtl grantedLease grantedKeyLease aRxTime) }

/-- Modelled from the spec: Server::ProcessDnsUpdate parse and validation
phases (section 4.4; the body of ProcessDnsUpdate and its helpers is in
the missing srp_server.cpp).  Phases: header counts, zone section, host
description (the KEY record is mandatory), service instructions (an SRV
target must equal the host name), signature; the staged host is produced
only when every check passes. -/
def parseDnsUpdate (aDomain : String) (tc : TtlConfig) (lc : LeaseConfig)
    (m : DnsMessage) (aRxTime : Nat) : Except DnsResponseCode SrvHost :=
  if ¬ (m.mOpcodeIsUpdate = true ∧ m.mZoneCount = 1 ∧ m.mPrereqCount = 0 ∧
        1 ≤ m.mUpdateCount ∧ 1 ≤ m.mAdditionalCount) then
    Except.error DnsResponseCode.formerr
  else if ¬ (m.mZoneIsSOA = true ∧ m.mZoneIsIN = true) then
    Except.error DnsResponseCode.formerr
  else if nameMatch m.mZoneName aDomain = false then
    Except.error DnsResponseCode.refused
  else
    match m.mHostKey with
    | none => Except.error DnsResponseCode.formerr
    | some key =>
      if m.mInstrs.any
          (fun i => !i.mDelete && !(nameMatch i.mSrvTargetHostName m.mHostName)) then
        Except.error DnsResponseCode.formerr
      else if m.mSigValid = false then
        Except.error DnsResponseCode.notauth
      else
        Except.ok (buildStagedHost tc lc m key aRxTime)

/-- Key equality of two services: same service name and same instance
name, compared as DNS names. -/
def svcMatch (a b : SrvService) : Bool :=
  nameMatch a.mServiceName b.mServiceName && nameMatch a.mInstanceName b.mInstanceName

def descMatch (a b : SrvDescription) : Bool :=
  nameMatch a.mInstanceName b.mInstanceName

/-- Modelled from the spec: merging the staged service list into a live
host (section 4.7): every staged service replaces the live service with
its key (overwriting, resurrecting or soft-deleting it) and is marked
committed; live services untouched by the update are preserved. -/
def mergeServices (live staged : List SrvService) : List SrvService :=
  staged.map SrvService.markCommitted ++
    live.filter fun ls => !(staged.any fun ss => svcMatch ss ls)

/-- Modelled from the spec: merging staged descriptions into a live host
by instance name (section 4.7); a staged description overwrites the live
one of the same instance, others are preserved. -/
def mergeDescriptions (live staged : List SrvDescription) : List SrvDescription :=
  staged ++ live.filter fun ld => !(staged.any fun sd => descMatch sd ld)

/-- Modelled from the spec: in-place merge of a staged host into the live
host of the same name (section 4.7): addresses, TTL, leases and update
time are overwritten, the name and the KEY (which already matched by the
conflict check) are kept. -/
def SrvHost.mergeFrom (live staged : SrvHost) : SrvHost :=
  { live with
    mAddresses := staged.mAddresses
    mTtl := staged.mTtl
    mLease := staged.mLease
    mKeyLease := staged.mKeyLease
    mUpdateTime := staged.mUpdateTime
    mServices := mergeServices live.mServices staged.mServices
    mDescriptions := mergeDescriptions live.mDescriptions staged.mDescriptions }

/-- Modelled from the spec: soft-delete of a host (sections 4.7 and 4.8):
LEASE becomes 0, the address set is cleared, every service is marked
deleted; the name and the running KEY-LEASE are retained. -/
def softDeleteHost (h : SrvHost) : SrvHost :=
  { h with
    mLease := 0
    mAddresses := []
    mServices := h.mServices.map SrvService.markDeleted }

/-- Modelled from the spec: inserting a staged host that was not yet
present; its services become committed registry state (section 4.7). -/
def commitNewHost (staged : SrvHost) : SrvHost :=
  { staged with mServices := staged.mServices.map SrvService.markCommitted }

/-- Modelled from the spec: Server::CommitSrpUpdate registry merge
(declared at srp_server.hpp lines 997-1004, body missing; section 4.7).
A staged LEASE of 0 soft-deletes the live host of that name; otherwise
the staged host is merged into the live host of the same name, or
inserted when absent. -/
def commitSrpUpdate (registry : List SrvHost) (staged : SrvHost) : List SrvHost :=
  if staged.mLease = 0 then
    registry.map fun h =>
      if nameMatch h.mFullName staged.mFullName then softDeleteHost h else h
  else if registry.any fun h => nameMatch h.mFullName staged.mFullName then
    registry.map fun h =>
      if nameMatch h.mFullName staged.mFullName then SrvHost.mergeFrom h staged else h
  else
    commitNewHost staged :: registry

/-- Modelled from the spec: Server::HasNameConflictsWith (declared at
srp_server.hpp line 1036, body missing; section 4.5).  A staged host
conflicts with the registry iff a live host has the same full name but a
different KEY record, or a staged service instance name is bound to a
live description owned by a different host. -/
def hostsConflict (registry : List SrvHost) (aHost : SrvHost) : Bool :=
  (registry.any fun h =>
    nameMatch h.mFullName aHost.mFullName && !(h.mKeyRecord == aHost.mKeyRecord)) ||
  (aHost.mServices.any fun sv =>
    registry.any fun h =>
      !(nameMatch h.mFullName aHost.mFullName) && h.HasServiceInstance sv.mInstanceName)

/-- One in-flight update transaction (Server::UpdateMetadata). -/
structure UpdateMetadata where
  mId : Nat
  mExpireTime : Nat
  mHost : SrvHost
deriving DecidableEq

/-- Translated from the source (srp_server.hpp line 963):
UpdateMetadata::Matches compares the transaction id. -/
def UpdateMetadata.Matches (u : UpdateMetadata) (aId : Nat) : Bool := u.mId == aId

/-- The default domain, from the GetDomain documentation in the source
(srp_server.hpp line 726). -/
def kDefaultDomain : String := "default.service.arpa."

/-- Handler timeout constant (OPENTHREAD_CONFIG_SRP_SERVER_SERVICE_UPDATE
TIMEOUT); its value is immaterial to every claim. -/
def kDefaultEventsHandlerTimeout : Nat := 4250

def kTwoPow32 : Nat := 4294967296

/-- The server state the claims range over: registry, outstanding
transactions, monotonic update id, configuration (srp_server.hpp lines
1059-1084, restricted to the fields the update pipeline touches). -/
structure ServerState where
  mDomain : Option String
  mTtlConfig : TtlConfig
  mLeaseConfig : LeaseConfig
  mHosts : List SrvHost
  mOutstandingUpdates : List UpdateMetadata
  mServiceUpdateId : Nat
  mState : SrvState
  mHasServiceHandler : Bool
deriving DecidableEq

/-- Translated from the source (srp_server.hpp line 732 and its
documentation): GetDomain returns the configured domain, and the default
domain when none has been set. -/
def ServerState.GetDomain (s : ServerState) : String :=
  s.mDomain.getD kDefaultDomain

/-- Modelled from the spec: Server::SetDomain (declared at srp_server.hpp
line 748, body missing).  Setting is allowed only in the Disabled or
Stopped state (invalid-state error while Running); a trailing dot is
appended when missing; an invalid (empty) DNS domain name is rejected
with an invalid-args error, per the documented return values. -/
def ServerState.SetDomain (s : ServerState) (aDomain : String) :
    OtError × ServerState :=
  if s.mState = SrvState.kStateRunning then
    (OtError.kErrorInvalidState, s)
  else if aDomain = "" then
    (OtError.kErrorInvalidArgs, s)
  else
    let withDot := if aDomain.endsWith "." then aDomain else aDomain ++ "."
    (OtError.kErrorNone, { s with mDomain := some withDot })

def ServerState.HasNameConflictsWith (s : ServerState) (aHost : SrvHost) : Bool :=
  hostsConflict s.mHosts aHost

/-- Translated from the source (srp_server.hpp line 994): AllocateId
returns mServiceUpdateId and post-increments it, in uint32 arithmetic. -/
def ServerState.AllocateId (s : ServerState) : Nat × ServerState :=
  (s.mServiceUpdateId,
   { s with mServiceUpdateId := (s.mServiceUpdateId + 1) % kTwoPow32 })

def ServerState.FindOutstandingUpdate (s : ServerState) (aId : Nat) :
    Option UpdateMetadata :=
  s.mOutstandingUpdates.find? fun u => u.Matches aId

/-- Outcome of processing one DNS UPDATE message: the new server state,
the response (none while a handler completion is pending), and the
service-update handler invocation, if any. -/
structure ProcessOutcome where
  mState : ServerState
  mResponse : Option DnsResponse
  mHandlerInvoked : Option (Nat × SrvHost)
deriving DecidableEq

/-- Modelled from the spec: Server::ProcessDnsUpdate followed by
HandleUpdate / InformUpdateHandlerOrCommit (sections 4.4 to 4.7, bodies
missing).  A parse or validation error answers immediately and mutates
nothing; a name conflict answers NAME EXISTS and drops the update before
the handler sees it; otherwise the update is either handed to the
registered handler under a fresh transaction id, or committed at once
with an implicit successful completion when no handler is registered. -/
def ServerState.ProcessDnsUpdate (s : ServerState) (m : DnsMessage)
    (aRxTime : Nat) : ProcessOutcome :=
  match parseDnsUpdate s.GetDomain s.mTtlConfig s.mLeaseConfig m aRxTime with
  | Except.error code => ⟨s, some (DnsResponse.failure code), none⟩
  | Except.ok staged =>
    if s.HasNameConflictsWith staged then
      ⟨s, some (DnsResponse.failure DnsResponseCode.nameExists), none⟩
    else if s.mHasServiceHandler then
      ⟨{ (s.AllocateId).2 with
         mOutstandingUpdates := s.mOutstandingUpdates ++
           [⟨(s.AllocateId).1, aRxTime + kDefaultEventsHandlerTimeout, staged⟩] },
       none, some ((s.AllocateId).1, staged)⟩
    else
      ⟨{ s with mHosts := commitSrpUpdate s.mHosts staged },
       some (DnsResponse.success staged.mLease staged.mKeyLease), none⟩

/-- Modelled from the spec: Server::HandleServiceUpdateResult (declared at
srp_server.hpp lines 903-911, body missing; section 4.6).  An id that
matches no outstanding transaction is ignored; a successful result
commits the staged host and answers with the granted leases; a failure
drops the staged host and answers SERVER FAILURE; the transaction is
removed in either case. -/
def ServerState.HandleServiceUpdateResult (s : ServerState) (aId : Nat)
    (aError : OtError) : ServerState × Option DnsResponse :=
  match s.FindOutstandingUpdate aId with
  | none => (s, none)
  | some u =>
    let rest := s.mOutstandingUpdates.eraseP fun v => v.Matches aId
    if aError = OtError.kErrorNone then
      ({ s with mHosts := commitSrpUpdate s.mHosts u.mHost,
                mOutstandingUpdates := rest },
       some (DnsResponse.success u.mHost.mLease u.mHost.mKeyLease))
    else
      ({ s with mOutstandingUpdates := rest },
       some (DnsResponse.failure DnsResponseCode.serverFailure))

def SrvDescription.expireTimeMs (d : SrvDescription) : Nat :=
  d.mUpdateTime + d.mLease * 1000

def SrvDescription.keyExpireTimeMs (d : SrvDescription) : Nat :=
  d.mUpdateTime + d.mKeyLease * 1000

def SrvHost.expireTimeMs (h : SrvHost) : Nat := h.mUpdateTime + h.mLease * 1000

def SrvHost.keyExpireTimeMs (h : SrvHost) : Nat :=
  h.mUpdateTime + h.mKeyLease * 1000

/-- Per-service lease expiry step (section 4.8): a service whose
description lease has elapsed is marked deleted. -/
def expireServiceStep (h : SrvHost) (now : Nat) (sv : SrvService) : SrvService :=
  match h.findDescription sv.mInstanceName with
  | some d => if d.expireTimeMs ≤ now then SrvService.markDeleted sv else sv
  | none => sv

/-- Per-service key lease liveness (section 4.8): a service whose
description key lease has elapsed is removed. -/
def serviceKeyAlive (h : SrvHost) (now : Nat) (sv : SrvService) : Bool :=
  match h.findDescription sv.mInstanceName with
  | some d => decide (now < d.keyExpireTimeMs)
  | none => true

/-- Modelled from the spec: the per-service part of the lease sweep
(section 4.8) on a host that has not globally expired. -/
def expireServicesOfHost (h : SrvHost) (now : Nat) : SrvHost :=
  { h with
    mServices := (h.mServices.filter (serviceKeyAlive h now)).map
      (expireServiceStep h now)
    mDescriptions := h.mDescriptions.filter fun d =>
      decide (now < d.keyExpireTimeMs) }

/-- Modelled from the spec: Server::HandleLeaseTimer (declared at
srp_server.hpp line 1046, body missing; section 4.8).  A host past its
key lease expiry is fully removed; a host past its lease expiry and not
yet soft-deleted is soft-deleted; otherwise its services expire
individually. -/
def ServerState.HandleLeaseTimer (s : ServerState) (now : Nat) : ServerState :=
  { s with mHosts := s.mHosts.filterMap fun h =>
      if h.keyExpireTimeMs ≤ now then none
      else if h.expireTimeMs ≤ now ∧ h.mLease ≠ 0 then some (softDeleteHost h)
      else some (expireServicesOfHost h now) }

/-- The per-host registry invariant of section 8 item 1. -/
def HostLeaseInv (h : SrvHost) : Prop :=
  h.mLease ≤ h.mKeyLease ∧
    (h.mLease = 0 → ∀ sv ∈ h.mServices, sv.mIsDeleted = true)

/-- The global invariant carried through the reachability induction:
every committed host satisfies the lease invariant and every staged host
of an outstanding transaction already has KEY-LEASE at least LEASE. -/
def StateInv (s : ServerState) : Prop :=
  (∀ h ∈ s.mHosts, HostLeaseInv h) ∧
    (∀ u ∈ s.mOutstandingUpdates, u.mHost.mLease ≤ u.mHost.mKeyLease)

/-- States reachable from an empty registry by the update pipeline:
message processing (parse, conflict check, commit or handler hand-off),
handler completions, and lease-timer sweeps. -/
inductive Reachable : ServerState → Prop where
  | init (dom : Option String) (tc : TtlConfig) (lc : LeaseConfig)
      (st : SrvState) (hs : Bool) :
      Reachable (ServerState.mk dom tc lc [] [] 0 st hs)
  | processUpdate {s : ServerState} (m : DnsMessage) (rx : Nat) :
      Reachable s → Reachable (s.ProcessDnsUpdate m rx).mState
  | handleResult {s : ServerState} (aId : Nat) (e : OtError) :
      Reachable s → Reachable (s.HandleServiceUpdateResult aId e).1
  | leaseTimer {s : ServerState} (now : Nat) :
      Reachable s → Reachable (s.HandleLeaseTimer now)

/-! Concrete fixtures used by the closed witness theorems. -/

def tcW : TtlConfig := ⟨30, 100⟩

def lcW : LeaseConfig := ⟨30, 100, 30, 200⟩

def descW : SrvDescription := ⟨"i.", [9], 0, 0, 80, 40, 50, 60, 0⟩

def hostW : SrvHost := ⟨"a.", [7], some 1, 40, 50, 60, 0, [], [descW]⟩

def instrW : ServiceInstr := ⟨"s.", "i.", false, false, 0, 0, 80, [9], "a."⟩

def msgW : DnsMessage :=
  ⟨true, 1, 0, 2, 2, true, true, "d.", "a.", [7], some 2, [instrW],
   40, some 50, some 60, true⟩

def srvW : ServerState :=
  ⟨some "d.", tcW, lcW, [hostW], [], 0, SrvState.kStateRunning, false⟩

def stagedW : SrvHost := buildStagedHost tcW lcW msgW 2 5

def srvEmptyW : ServerState :=
  ⟨some "d.", tcW, lcW, [], [], 0, SrvState.kStateRunning, false⟩

def msgBadW : DnsMessage := { msgW with mOpcodeIsUpdate := false }

def srvDisabledW : ServerState :=
  ⟨none, tcW, lcW, [], [], 0, SrvState.kStateDisabled, false⟩

def srvOutW : ServerState :=
  { srvW with mOutstandingUpdates := [⟨3, 0, hostW⟩] }


/-! Basic helper lemmas about names, services and generic lists. -/

theorem nameMatch_refl (a : String) : nameMatch a a = true := by
  simp [nameMatch]

theorem svcMatch_markCommitted (a b : SrvService) :
    svcMatch a (SrvService.markCommitted b) = svcMatch a b := rfl

theorem svcMatch_refl (a : SrvService) : svcMatch a a = true := by
  simp [svcMatch, nameMatch_refl]

theorem descMatch_refl (a : SrvDescription) : descMatch a a = true := by
  simp [descMatch, nameMatch_refl]

theorem filterIdem {α : Type} (p : α → Bool) (l : List α) :
    (l.filter p).filter p = l.filter p := by
  induction l with
  | nil => rfl
  | cons a t ih =>
    by_cases h : p a = true <;> simp [List.filter_cons, h, ih]

theorem mapSelfEq {α : Type} {f : α → α} {l : List α} (h : ∀ x ∈ l, f x = x) :
    l.map f = l := by
  induction l with
  | nil => rfl
  | cons a t ih =>
    simp only [List.map_cons, h a (List.mem_cons_self a t)]
    rw [ih fun x hx => h x (List.mem_cons_of_mem a hx)]

theorem mapIdemOfPointwise {α : Type} (g : α → α) (l : List α)
    (h : ∀ x, g (g x) = g x) : (l.map g).map g = l.map g := by
  induction l with
  | nil => rfl
  | cons a t ih => simp only [List.map_cons, h, ih]

theorem anyCongr {α : Type} {p q : α → Bool} (l : List α)
    (h : ∀ x ∈ l, p x = q x) : l.any p = l.any q := by
  induction l with
  | nil => rfl
  | cons a t ih =>
    simp only [List.any_cons, h a (List.mem_cons_self a t)]
    rw [ih fun x hx => h x (List.mem_cons_of_mem a hx)]

/-! Claim C3: lease granting. -/

/-- C3: for a valid lease configuration, GrantLease returns 0 when the
requested lease is 0, and otherwise clamps the request into the
configured range, that is max(mMinLease, min(request, mMaxLease)). -/
theorem grantLease_clamps (c : LeaseConfig) (aLease : Nat)
    (hv : c.mMinLease ≤ c.mMaxLease) :
    (aLease = 0 → c.GrantLease aLease = 0) ∧
    (aLease ≠ 0 →
      c.GrantLease aLease = max c.mMinLease (min aLease c.mMaxLease)) := by
  constructor
  · intro h0
    simp [LeaseConfig.GrantLease, h0]
  · intro h0
    simp [LeaseConfig.GrantLease, h0, natClamp]

theorem grantLease_clamps_witness :
    (lcW.GrantLease 0 = 0) ∧
    (lcW.GrantLease 50 = max lcW.mMinLease (min 50 lcW.mMaxLease)) :=
  ⟨(grantLease_clamps lcW 0 (by decide)).1 rfl,
   (grantLease_clamps lcW 50 (by decide)).2 (by decide)⟩

/-! Claim C4: TTL granting. -/

/-- C4: for a valid TTL configuration, GrantTtl returns the minimum of the
requested TTL, the granted lease and mMaxTtl, lower-bounded by mMinTtl. -/
theorem grantTtl_formula (c : TtlConfig) (aLease aTtl : Nat)
    (hv : c.mMinTtl ≤ c.mMaxTtl) :
    c.GrantTtl aLease aTtl = max c.mMinTtl (min aTtl (min aLease c.mMaxTtl)) := by
  simp [TtlConfig.GrantTtl, natClamp, Nat.min_assoc]

theorem grantTtl_formula_witness :
    tcW.GrantTtl 50 40 = max tcW.mMinTtl (min 40 (min 50 tcW.mMaxTtl)) :=
  grantTtl_formula tcW 50 40 (by decide)

/-! Claim C9: update id allocation. -/

/-- C9: AllocateId returns the current id and post-increments the stored
counter in 32-bit unsigned arithmetic, so two consecutive allocations
return ids related by plus one modulo two to the power 32, and the two
ids are distinct. -/
theorem allocateId_monotonic (s : ServerState)
    (hlt : s.mServiceUpdateId < kTwoPow32) :
    ((s.AllocateId).2.AllocateId).1 = ((s.AllocateId).1 + 1) % kTwoPow32 ∧
    ((s.AllocateId).2.AllocateId).1 ≠ (s.AllocateId).1 := by
  constructor
  · rfl
  · simp only [ServerState.AllocateId]
    unfold kTwoPow32 at *
    omega

theorem allocateId_monotonic_witness :
    ((srvW.AllocateId).2.AllocateId).1 = ((srvW.AllocateId).1 + 1) % kTwoPow32 ∧
    ((srvW.AllocateId).2.AllocateId).1 ≠ (srvW.AllocateId).1 :=
  allocateId_monotonic srvW (by decide)

/-! Claim C10: address accessor. -/

/-- C10: GetAddresses reports min(stored length, 255) as the address
count, the count never exceeds 255, and the returned pointer is null
exactly when the stored address array is empty. -/
theorem getAddresses_clamped (h : SrvHost) :
    (h.GetAddresses).2 = min h.mAddresses.length 255 ∧
    (h.GetAddresses).2 ≤ 255 ∧
    ((h.GetAddresses).1 = none ↔ h.mAddresses = []) := by
  refine ⟨rfl, Nat.min_le_right _ _, ?_⟩
  rcases hl : h.mAddresses with _ | ⟨a, as⟩ <;>
    simp [SrvHost.GetAddresses, hl]

/-! Claim C8: unknown transaction ids are ignored. -/

/-- C8: a service-update result whose id matches no outstanding
transaction leaves the whole server state unchanged and emits no DNS
response. -/
theorem handleResult_unknown_id_ignored (s : ServerState) (aId : Nat)
    (e : OtError) (h : ∀ u ∈ s.mOutstandingUpdates, u.mId ≠ aId) :
    s.HandleServiceUpdateResult aId e = (s, none) := by
  have hf : s.FindOutstandingUpdate aId = none := by
    apply List.find?_eq_none.mpr
    intro u hu
    simpa [UpdateMetadata.Matches] using h u hu
  simp [ServerState.HandleServiceUpdateResult, hf]

theorem handleResult_unknown_id_ignored_witness :
    srvOutW.HandleServiceUpdateResult 7 OtError.kErrorNone = (srvOutW, none) :=
  handleResult_unknown_id_ignored srvOutW 7 OtError.kErrorNone (by decide)

/-! Claim C7: domain accessor and setter. -/

/-- C7 counterexample: in the Disabled state, SetDomain with an invalid
(empty) domain name does not succeed, so success is not equivalent to the
server being Disabled or Stopped. -/
theorem setDomain_state_only_counterexample :
    srvDisabledW.mState = SrvState.kStateDisabled ∧
    (srvDisabledW.SetDomain "").1 ≠ OtError.kErrorNone := by
  exact ⟨rfl, by decide⟩

/-- C7 (amended): GetDomain falls back to the default domain when none is
set, and SetDomain succeeds (storing the domain with a trailing dot
appended when missing) exactly when the server state is Disabled or
Stopped and the domain is a valid (non-empty) name; while Running it
returns the invalid-state error and changes nothing. -/
theorem getDomain_setDomain_policy (s : ServerState) (d : String) :
    (s.mDomain = none → s.GetDomain = "default.service.arpa.") ∧
    ((s.SetDomain d).1 = OtError.kErrorNone ↔
      ((s.mState = SrvState.kStateDisabled ∨ s.mState = SrvState.kStateStopped) ∧
        d ≠ "")) ∧
    ((s.SetDomain d).1 = OtError.kErrorNone →
      (s.SetDomain d).2.mDomain =
        some (if d.endsWith "." then d else d ++ ".")) ∧
    (s.mState = SrvState.kStateRunning →
      (s.SetDomain d).1 = OtError.kErrorInvalidState ∧ (s.SetDomain d).2 = s) := by
  refine ⟨?_, ?_, ?_, ?_⟩
  · intro h0
    simp [ServerState.GetDomain, h0, kDefaultDomain]
  · cases hs : s.mState <;> by_cases hd : d = "" <;>
      simp [ServerState.SetDomain, hs, hd]
  · intro hsucc
    cases hs : s.mState <;> by_cases hd : d = "" <;>
      simp [ServerState.SetDomain, hs, hd] at hsucc ⊢
  · intro hr
    simp [ServerState.SetDomain, hr]

theorem getDomain_setDomain_policy_witness :
    (srvDisabledW.SetDomain "x").1 = OtError.kErrorNone ∧
    (srvDisabledW.SetDomain "x").2.mDomain =
      some (if ("x").endsWith "." then "x" else "x" ++ ".") := by
  have h1 := (getDomain_setDomain_policy srvDisabledW "x").2.1.mpr
    ⟨Or.inl rfl, by decide⟩
  exact ⟨h1, (getDomain_setDomain_policy srvDisabledW "x").2.2.1 h1⟩

/-! Claim C6: failed parses mutate nothing. -/

/-- C6: a message rejected by the parse and validation phases leaves the
entire server state, and in particular the live registry, unchanged; the
corresponding error code is answered and the handler is not invoked. -/
theorem parse_error_no_mutation (s : ServerState) (m : DnsMessage) (rx : Nat)
    (code : DnsResponseCode)
    (hp : parseDnsUpdate s.GetDomain s.mTtlConfig s.mLeaseConfig m rx =
      Except.error code) :
    (s.ProcessDnsUpdate m rx).mState = s ∧
    (s.ProcessDnsUpdate m rx).mState.mHosts = s.mHosts ∧
    (s.ProcessDnsUpdate m rx).mResponse = some (DnsResponse.failure code) ∧
    (s.ProcessDnsUpdate m rx).mHandlerInvoked = none := by
  simp [ServerState.ProcessDnsUpdate, hp]

theorem parse_error_no_mutation_witness :
    (srvW.ProcessDnsUpdate msgBadW 5).mState = srvW ∧
    (srvW.ProcessDnsUpdate msgBadW 5).mState.mHosts = srvW.mHosts ∧
    (srvW.ProcessDnsUpdate msgBadW 5).mResponse =
      some (DnsResponse.failure DnsResponseCode.formerr) ∧
    (srvW.ProcessDnsUpdate msgBadW 5).mHandlerInvoked = none :=
  parse_error_no_mutation srvW msgBadW 5 DnsResponseCode.formerr rfl

/-! Claim C2: name-conflict detection. -/

/-- C2: the conflict check reports a conflict exactly when some live host
has the same full name but a different KEY record, or some staged service
instance name is bound to a live description owned by a different host;
and a detected conflict makes the server answer NAME EXISTS, drop the
update without touching the registry, and skip the handler. -/
theorem nameConflict_check_correct (s : ServerState) (staged : SrvHost) :
    (s.HasNameConflictsWith staged = true ↔
      ((∃ live ∈ s.mHosts, nameMatch live.mFullName staged.mFullName = true ∧
          live.mKeyRecord ≠ staged.mKeyRecord) ∨
       (∃ sv ∈ staged.mServices, ∃ live ∈ s.mHosts,
          nameMatch live.mFullName staged.mFullName = false ∧
          live.HasServiceInstance sv.mInstanceName = true))) ∧
    (∀ (m : DnsMessage) (rx : Nat),
      parseDnsUpdate s.GetDomain s.mTtlConfig s.mLeaseConfig m rx =
        Except.ok staged →
      s.HasNameConflictsWith staged = true →
      (s.ProcessDnsUpdate m rx).mState = s ∧
      (s.ProcessDnsUpdate m rx).mResponse =
        some (DnsResponse.failure DnsResponseCode.nameExists) ∧
      (s.ProcessDnsUpdate m rx).mHandlerInvoked = none) := by
  constructor
  · simp only [ServerState.HasNameConflictsWith, hostsConflict, Bool.or_eq_true,
      List.any_eq_true, Bool.and_eq_true, Bool.not_eq_true', beq_eq_false_iff_ne,
      ne_eq]
  · intro m rx hp hc
    simp [ServerState.ProcessDnsUpdate, hp, hc]

theorem nameConflict_check_correct_witness :
    srvW.HasNameConflictsWith stagedW = true ∧
    (srvW.ProcessDnsUpdate msgW 5).mState = srvW ∧
    (srvW.ProcessDnsUpdate msgW 5).mResponse =
      some (DnsResponse.failure DnsResponseCode.nameExists) ∧
    (srvW.ProcessDnsUpdate msgW 5).mHandlerInvoked = none := by
  have hc : srvW.HasNameConflictsWith stagedW = true := by decide
  have h := (nameConflict_check_correct srvW stagedW).2 msgW 5 rfl hc
  exact ⟨hc, h⟩

/-! Merge and commit lemmas for the idempotence claim. -/

theorem mergeServices_filter_staged (s : List SrvService) :
    ((s.map SrvService.markCommitted).filter
      fun ls => !(s.any fun ss => svcMatch ss ls)) = [] := by
  rw [List.filter_eq_nil]
  intro x hx
  obtain ⟨ss, hss, rfl⟩ := List.mem_map.mp hx
  simp only [Bool.not_eq_true', Bool.not_eq_false]
  exact List.any_eq_true.mpr ⟨ss, hss, by
    rw [svcMatch_markCommitted]
    exact svcMatch_refl ss⟩

theorem mergeServices_idem (l s : List SrvService) :
    mergeServices (mergeServices l s) s = mergeServices l s := by
  unfold mergeServices
  rw [List.filter_append, mergeServices_filter_staged, filterIdem]
  simp

theorem mergeDescriptions_filter_self (s : List SrvDescription) :
    (s.filter fun ld => !(s.any fun sd => descMatch sd ld)) = [] := by
  rw [List.filter_eq_nil]
  intro x hx
  simp only [Bool.not_eq_true', Bool.not_eq_false]
  exact List.any_eq_true.mpr ⟨x, hx, descMatch_refl x⟩

theorem mergeDescriptions_idem (l s : List SrvDescription) :
    mergeDescriptions (mergeDescriptions l s) s = mergeDescriptions l s := by
  unfold mergeDescriptions
  rw [List.filter_append, mergeDescriptions_filter_self, filterIdem]
  simp

theorem mergeFrom_idem (live staged : SrvHost) :
    (live.mergeFrom staged).mergeFrom staged = live.mergeFrom staged := by
  unfold SrvHost.mergeFrom
  simp [mergeServices_idem, mergeDescriptions_idem]

theorem mergeFrom_commitNew (staged : SrvHost) :
    (commitNewHost staged).mergeFrom staged = commitNewHost staged := by
  unfold commitNewHost SrvHost.mergeFrom
  simp only [mergeServices, mergeDescriptions, mergeServices_filter_staged,
    mergeDescriptions_filter_self, List.append_nil]

theorem markDeleted_idem (sv : SrvService) :
    sv.markDeleted.markDeleted = sv.markDeleted := rfl

theorem softDeleteHost_idem (h : SrvHost) :
    softDeleteHost (softDeleteHost h) = softDeleteHost h := by
  unfold softDeleteHost
  rw [List.map_map]
  have hcomp : SrvService.markDeleted ∘ SrvService.markDeleted =
      SrvService.markDeleted := funext fun sv => rfl
  rw [hcomp]

theorem commitSrpUpdate_idem (reg : List SrvHost) (staged : SrvHost) :
    commitSrpUpdate (commitSrpUpdate reg staged) staged =
      commitSrpUpdate reg staged := by
  by_cases h0 : staged.mLease = 0
  · rw [commitSrpUpdate, if_pos h0, commitSrpUpdate, if_pos h0]
    apply mapIdemOfPointwise
    intro x
    by_cases hn : nameMatch x.mFullName staged.mFullName
    · have hn2 : nameMatch (softDeleteHost x).mFullName staged.mFullName = true := hn
      rw [if_pos hn, if_pos hn2, softDeleteHost_idem]
    · rw [if_neg hn, if_neg hn]
  · by_cases h1 : reg.any fun h => nameMatch h.mFullName staged.mFullName
    · have hC : commitSrpUpdate reg staged = reg.map fun h =>
          if nameMatch h.mFullName staged.mFullName then
            SrvHost.mergeFrom h staged else h := by
        rw [commitSrpUpdate, if_neg h0, if_pos h1]
      have hsame : ((reg.map fun h =>
          if nameMatch h.mFullName staged.mFullName then
            SrvHost.mergeFrom h staged else h).any
          fun h => nameMatch h.mFullName staged.mFullName) = true := by
        rw [List.any_map]
        refine Eq.trans (anyCongr reg fun x _ => ?_) h1
        by_cases hn : nameMatch x.mFullName staged.mFullName
        · simp only [Function.comp_apply, if_pos hn]
          rfl
        · simp only [Function.comp_apply, if_neg hn]
      rw [hC, commitSrpUpdate, if_neg h0, if_pos hsame]
      apply mapIdemOfPointwise
      intro x
      by_cases hn : nameMatch x.mFullName staged.mFullName
      · have hn2 : nameMatch (SrvHost.mergeFrom x staged).mFullName
            staged.mFullName = true := hn
        rw [if_pos hn, if_pos hn2, mergeFrom_idem]
      · rw [if_neg hn, if_neg hn]
    · have hC : commitSrpUpdate reg staged = commitNewHost staged :: reg := by
        rw [commitSrpUpdate, if_neg h0, if_neg h1]
      have hhead : ((commitNewHost staged :: reg).any
          fun h => nameMatch h.mFullName staged.mFullName) = true := by
        rw [List.any_cons]
        have hr : nameMatch (commitNewHost staged).mFullName staged.mFullName =
            true := nameMatch_refl staged.mFullName
        rw [hr, Bool.true_or]
      have hcn : nameMatch (commitNewHost staged).mFullName staged.mFullName =
          true := nameMatch_refl staged.mFullName
      rw [hC, commitSrpUpdate, if_neg h0, if_pos hhead, List.map_cons,
        if_pos hcn, mergeFrom_commitNew]
      have hrest : (reg.map fun h =>
          if nameMatch h.mFullName staged.mFullName then
            SrvHost.mergeFrom h staged else h) = reg := by
        apply mapSelfEq
        intro x hx
        have hnx : ¬ nameMatch x.mFullName staged.mFullName = true := by
          intro hcon
          exact h1 (List.any_eq_true.mpr ⟨x, hx, hcon⟩)
        rw [if_neg hnx]
      rw [hrest]

theorem mem_commitSrpUpdate {reg : List SrvHost} {staged y : SrvHost}
    (hy : y ∈ commitSrpUpdate reg staged) :
    (∃ x ∈ reg, y = x) ∨
    (∃ x ∈ reg, nameMatch x.mFullName staged.mFullName = true ∧
      (y = softDeleteHost x ∨ y = x.mergeFrom staged)) ∨
    y = commitNewHost staged := by
  unfold commitSrpUpdate at hy
  split at hy
  · obtain ⟨x, hx, hfx⟩ := List.mem_map.mp hy
    by_cases hn : nameMatch x.mFullName staged.mFullName
    · rw [if_pos hn] at hfx
      exact Or.inr (Or.inl ⟨x, hx, hn, Or.inl hfx.symm⟩)
    · rw [if_neg hn] at hfx
      exact Or.inl ⟨x, hx, hfx.symm⟩
  · split at hy
    · obtain ⟨x, hx, hfx⟩ := List.mem_map.mp hy
      by_cases hn : nameMatch x.mFullName staged.mFullName
      · rw [if_pos hn] at hfx
        exact Or.inr (Or.inl ⟨x, hx, hn, Or.inr hfx.symm⟩)
      · rw [if_neg hn] at hfx
        exact Or.inl ⟨x, hx, hfx.symm⟩
    · rcases List.mem_cons.mp hy with hh | hh
      · exact Or.inr (Or.inr hh)
      · exact Or.inl ⟨y, hh, rfl⟩

theorem hostsConflict_commit (reg : List SrvHost) (staged : SrvHost)
    (hcf : hostsConflict reg staged = false) :
    hostsConflict (commitSrpUpdate reg staged) staged = false := by
  rw [hostsConflict, Bool.or_eq_false_iff] at hcf
  obtain ⟨hA, hB⟩ := hcf
  rw [List.any_eq_false] at hA
  rw [List.any_eq_false] at hB
  rw [hostsConflict, Bool.or_eq_false_iff]
  constructor
  · rw [List.any_eq_false]
    intro y hy
    rw [Bool.not_eq_true]
    rcases mem_commitSrpUpdate hy with ⟨x, hx, rfl⟩ |
      ⟨x, hx, hn, (rfl | rfl)⟩ | rfl
    · simpa using hA y hx
    · simpa using hA x hx
    · simpa using hA x hx
    · have hk : ((commitNewHost staged).mKeyRecord == staged.mKeyRecord) =
          true := beq_self_eq_true staged.mKeyRecord
      rw [hk]
      simp
  · rw [List.any_eq_false]
    intro sv hsv
    rw [Bool.not_eq_true, List.any_eq_false]
    intro y hy
    rw [Bool.not_eq_true]
    have hBs := hB sv hsv
    rw [Bool.not_eq_true, List.any_eq_false] at hBs
    rcases mem_commitSrpUpdate hy with ⟨x, hx, rfl⟩ |
      ⟨x, hx, hn, (rfl | rfl)⟩ | rfl
    · simpa using hBs y hx
    · have hn2 : nameMatch (softDeleteHost x).mFullName staged.mFullName =
          true := hn
      rw [hn2]
      simp
    · have hn2 : nameMatch (x.mergeFrom staged).mFullName staged.mFullName =
          true := hn
      rw [hn2]
      simp
    · have hn2 : nameMatch (commitNewHost staged).mFullName staged.mFullName =
          true := nameMatch_refl staged.mFullName
      rw [hn2]
      simp

/-! Claim C5: idempotence of an accepted update. -/

theorem processDnsUpdate_commit (t : ServerState) (m : DnsMessage) (rx : Nat)
    (staged : SrvHost)
    (hh : t.mHasServiceHandler = false)
    (hp : parseDnsUpdate t.GetDomain t.mTtlConfig t.mLeaseConfig m rx =
      Except.ok staged)
    (hc : t.HasNameConflictsWith staged = false) :
    t.ProcessDnsUpdate m rx =
      ⟨{ t with mHosts := commitSrpUpdate t.mHosts staged },
       some (DnsResponse.success staged.mLease staged.mKeyLease), none⟩ := by
  simp only [ServerState.ProcessDnsUpdate, hp, hc, hh, Bool.false_eq_true,
    if_false]

/-- C5: submitting the same accepted update twice (no conflict, parse
succeeds, synchronous commit with no registered handler) leaves the
registry exactly as after the first submission, and both submissions are
answered NOERROR with the same granted LEASE and KEY-LEASE. -/
theorem update_idempotent (s : ServerState) (m : DnsMessage) (rx : Nat)
    (staged : SrvHost)
    (hh : s.mHasServiceHandler = false)
    (hp : parseDnsUpdate s.GetDomain s.mTtlConfig s.mLeaseConfig m rx =
      Except.ok staged)
    (hc : s.HasNameConflictsWith staged = false) :
    ((s.ProcessDnsUpdate m rx).mState.ProcessDnsUpdate m rx).mState.mHosts =
      (s.ProcessDnsUpdate m rx).mState.mHosts ∧
    (s.ProcessDnsUpdate m rx).mResponse =
      some (DnsResponse.success staged.mLease staged.mKeyLease) ∧
    ((s.ProcessDnsUpdate m rx).mState.ProcessDnsUpdate m rx).mResponse =
      (s.ProcessDnsUpdate m rx).mResponse := by
  have ho1 := processDnsUpdate_commit s m rx staged hh hp hc
  have ho2 := processDnsUpdate_commit
    { s with mHosts := commitSrpUpdate s.mHosts staged } m rx staged hh hp
    (hostsConflict_commit s.mHosts staged hc)
  rw [ho1]
  refine ⟨?_, rfl, ?_⟩
  · show ((({ s with mHosts := commitSrpUpdate s.mHosts staged } :
        ServerState).ProcessDnsUpdate m rx).mState).mHosts =
        commitSrpUpdate s.mHosts staged
    rw [ho2]
    exact commitSrpUpdate_idem s.mHosts staged
  · show (({ s with mHosts := commitSrpUpdate s.mHosts staged } :
        ServerState).ProcessDnsUpdate m rx).mResponse =
        some (DnsResponse.success staged.mLease staged.mKeyLease)
    rw [ho2]

theorem update_idempotent_witness :
    ((srvEmptyW.ProcessDnsUpdate msgW 5).mState.ProcessDnsUpdate msgW
        5).mState.mHosts =
      (srvEmptyW.ProcessDnsUpdate msgW 5).mState.mHosts ∧
    (srvEmptyW.ProcessDnsUpdate msgW 5).mResponse =
      some (DnsResponse.success stagedW.mLease stagedW.mKeyLease) ∧
    ((srvEmptyW.ProcessDnsUpdate msgW 5).mState.ProcessDnsUpdate msgW
        5).mResponse = (srvEmptyW.ProcessDnsUpdate msgW 5).mResponse :=
  update_idempotent srvEmptyW msgW 5 stagedW rfl rfl (by decide)

/-! Claim C1: registry lease invariants over all reachable states. -/

theorem parse_ok_lease_le {dom : String} {tc : TtlConfig} {lc : LeaseConfig}
    {m : DnsMessage} {rx : Nat} {staged : SrvHost}
    (h : parseDnsUpdate dom tc lc m rx = Except.ok staged) :
    staged.mLease ≤ staged.mKeyLease := by
  unfold parseDnsUpdate at h
  split at h
  · exact absurd h (by simp)
  split at h
  · exact absurd h (by simp)
  split at h
  · exact absurd h (by simp)
  split at h
  · exact absurd h (by simp)
  split at h
  · exact absurd h (by simp)
  split at h
  · exact absurd h (by simp)
  injection h with h2
  rw [← h2]
  simp only [buildStagedHost]
  exact Nat.le_max_right _ _

theorem hostLeaseInv_softDelete (x : SrvHost) :
    HostLeaseInv (softDeleteHost x) := by
  constructor
  · show (softDeleteHost x).mLease ≤ (softDeleteHost x).mKeyLease
    simp [softDeleteHost]
  · intro _ sv hsv
    simp only [softDeleteHost, List.mem_map] at hsv
    obtain ⟨y, hy, rfl⟩ := hsv
    rfl

theorem hostLeaseInv_commit {reg : List SrvHost} {staged : SrvHost}
    (hreg : ∀ x ∈ reg, HostLeaseInv x)
    (hle : staged.mLease ≤ staged.mKeyLease) :
    ∀ y ∈ commitSrpUpdate reg staged, HostLeaseInv y := by
  intro y hy
  unfold commitSrpUpdate at hy
  split at hy
  · obtain ⟨x, hx, hfx⟩ := List.mem_map.mp hy
    by_cases hn : nameMatch x.mFullName staged.mFullName
    · rw [if_pos hn] at hfx
      rw [← hfx]
      exact hostLeaseInv_softDelete x
    · rw [if_neg hn] at hfx
      rw [← hfx]
      exact hreg x hx
  · rename_i h0
    split at hy
    · obtain ⟨x, hx, hfx⟩ := List.mem_map.mp hy
      by_cases hn : nameMatch x.mFullName staged.mFullName
      · rw [if_pos hn] at hfx
        rw [← hfx]
        constructor
        · exact hle
        · intro hz
          exact absurd hz h0
      · rw [if_neg hn] at hfx
        rw [← hfx]
        exact hreg x hx
    · rcases List.mem_cons.mp hy with hc | hc
      · rw [hc]
        constructor
        · exact hle
        · intro hz
          exact absurd hz h0
      · exact hreg y hc

theorem hostLeaseInv_expire (x : SrvHost) (now : Nat)
    (hinv : HostLeaseInv x) : HostLeaseInv (expireServicesOfHost x now) := by
  obtain ⟨h1, h2⟩ := hinv
  constructor
  · exact h1
  · intro hz sv hsv
    simp only [expireServicesOfHost, List.mem_map, List.mem_filter] at hsv
    obtain ⟨y, ⟨hymem, _⟩, rfl⟩ := hsv
    have hyd := h2 hz y hymem
    cases hfd : x.findDescription y.mInstanceName with
    | none => simpa [expireServiceStep, hfd] using hyd
    | some d =>
      by_cases ht : d.expireTimeMs ≤ now
      · simp [expireServiceStep, hfd, ht, SrvService.markDeleted]
      · simpa [expireServiceStep, hfd, ht] using hyd

theorem leaseTimer_preserves (s : ServerState) (now : Nat)
    (hreg : ∀ x ∈ s.mHosts, HostLeaseInv x) :
    ∀ y ∈ (s.HandleLeaseTimer now).mHosts, HostLeaseInv y := by
  intro y hy
  simp only [ServerState.HandleLeaseTimer] at hy
  obtain ⟨x, hx, hfx⟩ := List.mem_filterMap.mp hy
  split at hfx
  · exact absurd hfx (by simp)
  · split at hfx
    · rw [← Option.some.inj hfx]
      exact hostLeaseInv_softDelete x
    · rw [← Option.some.inj hfx]
      exact hostLeaseInv_expire x now (hreg x hx)

theorem stateInv_processUpdate (s : ServerState) (m : DnsMessage) (rx : Nat)
    (hinv : StateInv s) : StateInv (s.ProcessDnsUpdate m rx).mState := by
  obtain ⟨hH, hO⟩ := hinv
  rcases hp : parseDnsUpdate s.GetDomain s.mTtlConfig s.mLeaseConfig m rx with
    code | staged
  · simp only [ServerState.ProcessDnsUpdate, hp]
    exact ⟨hH, hO⟩
  · have hle := parse_ok_lease_le hp
    by_cases hc : s.HasNameConflictsWith staged = true
    · simp only [ServerState.ProcessDnsUpdate, hp, hc, if_true]
      exact ⟨hH, hO⟩
    · have hc2 : s.HasNameConflictsWith staged = false := by
        simpa using hc
      by_cases hhh : s.mHasServiceHandler = true
      · simp only [ServerState.ProcessDnsUpdate, hp, hc2, Bool.false_eq_true,
          if_false, hhh, if_true]
        constructor
        · exact hH
        · intro u hu
          rcases List.mem_append.mp hu with hm | hm
          · exact hO u hm
          · have hu2 : u = ⟨(s.AllocateId).1,
                rx + kDefaultEventsHandlerTimeout, staged⟩ := by
              simpa using hm
            rw [hu2]
            exact hle
      · have hhh2 : s.mHasServiceHandler = false := by
          simpa using hhh
        rw [processDnsUpdate_commit s m rx staged hhh2 hp hc2]
        exact ⟨hostLeaseInv_commit hH hle, hO⟩

theorem stateInv_handleResult (s : ServerState) (aId : Nat) (e : OtError)
    (hinv : StateInv s) : StateInv (s.HandleServiceUpdateResult aId e).1 := by
  obtain ⟨hH, hO⟩ := hinv
  rcases hf : s.FindOutstandingUpdate aId with _ | u
  · simp only [ServerState.HandleServiceUpdateResult, hf]
    exact ⟨hH, hO⟩
  · have hu : u ∈ s.mOutstandingUpdates := List.mem_of_find?_eq_some hf
    have hle := hO u hu
    have hsub : ∀ v ∈ s.mOutstandingUpdates.eraseP fun w => w.Matches aId,
        v ∈ s.mOutstandingUpdates := fun v hv =>
      (List.eraseP_sublist _).subset hv
    by_cases he : e = OtError.kErrorNone
    · simp only [ServerState.HandleServiceUpdateResult, hf, he, if_true]
      exact ⟨hostLeaseInv_commit hH hle, fun v hv => hO v (hsub v hv)⟩
    · simp only [ServerState.HandleServiceUpdateResult, hf, he, if_false]
      exact ⟨hH, fun v hv => hO v (hsub v hv)⟩

theorem stateInv_reachable (s : ServerState) (hr : Reachable s) :
    StateInv s := by
  induction hr with
  | init dom tc lc st hs =>
    exact ⟨by simp, by simp⟩
  | processUpdate m rx hr ih => exact stateInv_processUpdate _ m rx ih
  | handleResult aId e hr ih => exact stateInv_handleResult _ aId e ih
  | leaseTimer now hr ih =>
    obtain ⟨hH, hO⟩ := ih
    exact ⟨leaseTimer_preserves _ now hH, hO⟩

/-- C1: in every state reachable by the update pipeline (message
processing, handler completions, lease sweeps), every committed host has
KEY-LEASE at least LEASE, is soft-deleted (Host::IsDeleted) exactly when
its LEASE is 0, and when its LEASE is 0 every one of its services is
deleted (Service::IsDeleted). -/
theorem reachable_host_invariants (s : ServerState) (hr : Reachable s) :
    ∀ h ∈ s.mHosts,
      h.mLease ≤ h.mKeyLease ∧
      (h.IsDeleted = true ↔ h.mLease = 0) ∧
      (h.mLease = 0 → ∀ sv ∈ h.mServices, sv.IsDeleted = true) := by
  intro h hmem
  obtain ⟨h1, h2⟩ := (stateInv_reachable s hr).1 h hmem
  refine ⟨h1, ?_, h2⟩
  simp [SrvHost.IsDeleted]

theorem reachable_host_invariants_witness :
    (commitNewHost stagedW).mLease ≤ (commitNewHost stagedW).mKeyLease ∧
    ((commitNewHost stagedW).IsDeleted = true ↔
      (commitNewHost stagedW).mLease = 0) ∧
    ((commitNewHost stagedW).mLease = 0 →
      ∀ sv ∈ (commitNewHost stagedW).mServices, sv.IsDeleted = true) :=
  reachable_host_invariants _
    (Reachable.processUpdate msgW 5
      (Reachable.init (some "d.") tcW lcW SrvState.kStateRunning false))
    (commitNewHost stagedW) (by decide)
